import Mathlib

/-
Verification of the sharepoint-skill scripts: a shallow embedding of
scripts/sharepoint-auth.js, scripts/sharepoint-upload.js, scripts/get-tenant.js
and the download / list scripts, together with theorems about the
credential-loading, token-acquisition, resource-resolution and file-operation
behaviour those scripts implement.

Modelling conventions:
- parsed JavaScript JSON values are the inductive `Json`; the result of the
  builtin JSON.parse on a response body is supplied in each environment as an
  `Option Json` (`none` means JSON.parse threw);
- machine effects are explicit: each modelled script run returns the ordered
  list of network requests it issued, the final state of any output file
  (`none` = the file is absent or was unlinked), and the process exit code;
- property access `v.field` on a parsed value is `Json.getField`, which is an
  `Except` because accessing a property of `null` throws a TypeError in
  JavaScript.
-/

/-- Parsed JavaScript JSON values, the result of JSON.parse. -/
inductive Json where
  | null
  | bool (b : Bool)
  | num (n : Int)
  | str (s : String)
  | arr (items : List Json)
  | obj (fields : List (String × Json))

/-- Object field lookup: a JavaScript object built by JSON.parse keeps the last
binding of a duplicated key, so the fold takes the last match. -/
def lookupLast (fields : List (String × Json)) (key : String) : Option Json :=
  fields.foldl (fun acc kv => if kv.1 = key then some kv.2 else acc) none

/-- JavaScript property access `v[key]` on a parsed JSON value.
`Except.error` models the TypeError thrown when `v` is null; `Except.ok none`
is the JavaScript value undefined; non-object non-null values (boxed
primitives, arrays) have no own JSON data properties, so access yields
undefined. -/
def Json.getField : Json → String → Except Unit (Option Json)
  | .null, _ => .error ()
  | .obj fields, key => .ok (lookupLast fields key)
  | _, _ => .ok none

/-- JavaScript truthiness of a parsed JSON value. -/
def Json.truthy : Json → Bool
  | .null => false
  | .bool b => b
  | .num n => decide (n ≠ 0)
  | .str s => decide (s ≠ "")
  | .arr _ => true
  | .obj _ => true

/-- Truthiness of a possibly-undefined value (undefined is falsy). -/
def truthyOpt : Option Json → Bool
  | none => false
  | some j => j.truthy

mutual

/-- JavaScript string conversion of a parsed JSON value, as performed by a
template literal. Arrays join their converted elements with commas, and a null
array element converts to the empty string. -/
def Json.jsToString : Json → String
  | .null => "null"
  | .bool b => if b then "true" else "false"
  | .num n => toString n
  | .str s => s
  | .arr items => String.intercalate "," (jsToStringArr items)
  | .obj _ => "[object Object]"

/-- Element-wise conversion used by the array case of `Json.jsToString`. -/
def jsToStringArr : List Json → List String
  | [] => []
  | .null :: rest => "" :: jsToStringArr rest
  | .bool b :: rest => Json.jsToString (.bool b) :: jsToStringArr rest
  | .num n :: rest => Json.jsToString (.num n) :: jsToStringArr rest
  | .str s :: rest => Json.jsToString (.str s) :: jsToStringArr rest
  | .arr a :: rest => Json.jsToString (.arr a) :: jsToStringArr rest
  | .obj o :: rest => Json.jsToString (.obj o) :: jsToStringArr rest

end

/-- Rendering of a possibly-undefined value by console.log. Faithful for
strings, numbers, booleans, null and undefined, the only shapes any claim
touches; composite values would print in inspected form. -/
def jsDisplayOpt : Option Json → String
  | none => "undefined"
  | some j => j.jsToString

/-- JavaScript `a || b` on possibly-undefined strings: keeps `a` when it is
truthy (present and nonempty), otherwise yields `b`. -/
def jsOr (a b : Option String) : Option String :=
  match a with
  | some s => if s = "" then b else some s
  | none => b

/-- Truthiness of a possibly-undefined string. -/
def truthyStr : Option String → Bool
  | none => false
  | some s => decide (s ≠ "")

/-- Splitting a character list at every occurrence of a separator character,
with the splitting semantics of the JavaScript String.split method. -/
def splitOnChar (sep : Char) : List Char → List (List Char)
  | [] => [[]]
  | c :: rest =>
    let r := splitOnChar sep rest
    if c = sep then [] :: r
    else
      match r with
      | [] => [[c]]
      | g :: gs => (c :: g) :: gs

/-- Split at the first equals sign, the shape the source regex captures:
the characters before the first equals sign and everything after it. -/
def breakAtEq : List Char → Option (List Char × List Char)
  | [] => none
  | c :: rest =>
    if c = '=' then some ([], rest)
    else
      match breakAtEq rest with
      | some kv => some (c :: kv.1, kv.2)
      | none => none

/-- Whitespace removed by the JavaScript trim method, restricted to the forms
that can occur in a credential file: space, tab, carriage return, line feed. -/
def isJsWhitespace (c : Char) : Bool :=
  c = ' ' || c = '\t' || c = '\r' || c = '\n'

/-- Drop leading whitespace. -/
def trimLeadingWs : List Char → List Char
  | [] => []
  | c :: rest => if isJsWhitespace c then trimLeadingWs rest else c :: rest

/-- Drop whitespace at both ends, the JavaScript trim method. -/
def trimWs (l : List Char) : List Char :=
  trimLeadingWs (trimLeadingWs l.reverse).reverse

/-- The trim method on strings. -/
def jsTrim (s : String) : String :=
  String.mk (trimWs s.data)

/-- Quote characters stripped from credential values. -/
def isQuoteChar (c : Char) : Bool :=
  c = '\'' || c = '"'

/-- Models the replacement of a leading and a trailing quote character,
the source regex being anchored at both ends and global. -/
def stripQuotes (l : List Char) : List Char :=
  let l1 := match l with
    | c :: rest => if isQuoteChar c then rest else l
    | [] => []
  match l1.reverse with
  | c :: rest => if isQuoteChar c then rest.reverse else l1
  | [] => l1

/-- One line of the credential file against the source regex: the key is the
nonempty run before the first equals sign, the value is everything after it. -/
def parseEnvLine (line : List Char) : Option (List Char × List Char) :=
  match breakAtEq line with
  | some kv => if kv.1 = [] then none else some kv
  | none => none

/-- Value of `key` in the parsed credential file: lines are split on newlines,
keys are trimmed, values are trimmed and quote-stripped, and a later line for
the same key overrides an earlier one. -/
def credValue (content : String) (key : String) : Option String :=
  (splitOnChar '\n' content.data).foldl
    (fun acc line =>
      match parseEnvLine line with
      | some kv =>
        if trimWs kv.1 = key.data then some (String.mk (stripQuotes (trimWs kv.2)))
        else acc
      | none => acc)
    none

/-- TENANT of sharepoint-auth.js: TEAMS_TENANT_ID with fallback TENANT. -/
def authTenant (content : String) : Option String :=
  jsOr (credValue content "TEAMS_TENANT_ID") (credValue content "TENANT")

/-- CLIENT_ID of sharepoint-auth.js: TEAMS_CLIENT_ID with fallback CLIENT_ID. -/
def authClientId (content : String) : Option String :=
  jsOr (credValue content "TEAMS_CLIENT_ID") (credValue content "CLIENT_ID")

/-- CLIENT_SECRET of sharepoint-auth.js. -/
def authClientSecret (content : String) : Option String :=
  jsOr (credValue content "TEAMS_CLIENT_SECRET") (credValue content "CLIENT_SECRET")

/-- Uppercase hexadecimal digit. -/
def hexDigitChar (n : Nat) : Char :=
  if n < 10 then Char.ofNat (48 + n) else Char.ofNat (55 + n)

/-- Percent-encoding of one byte. -/
def percentByte (b : Nat) : String :=
  String.mk ['%', hexDigitChar (b / 16), hexDigitChar (b % 16)]

/-- UTF-8 bytes of one character. -/
def utf8Bytes (c : Char) : List Nat :=
  (String.toUTF8 (String.mk [c])).toList.map (fun b => b.toNat)

/-- Characters kept verbatim by encodeURIComponent. -/
def isUriUnreservedChar (c : Char) : Bool :=
  c.isAlpha || c.isDigit || (['-', '_', '.', '!', '~', '*', '\'', '(', ')'].contains c)

/-- The encodeURIComponent builtin used to build item paths. -/
def encodeURIComponent (s : String) : String :=
  String.join (s.data.map fun c =>
    if isUriUnreservedChar c then String.mk [c]
    else String.join ((utf8Bytes c).map percentByte))

/-- Characters kept verbatim by the URLSearchParams form serializer. -/
def isFormSafeChar (c : Char) : Bool :=
  c.isAlpha || c.isDigit || (['*', '-', '.', '_'].contains c)

/-- Form encoding of one value as URLSearchParams serializes it. -/
def formEncode (s : String) : String :=
  String.join (s.data.map fun c =>
    if c = ' ' then "+"
    else if isFormSafeChar c then String.mk [c]
    else String.join ((utf8Bytes c).map percentByte))

/-- UTF-8 bytes of a string, as a list of naturals. -/
def strBytes (s : String) : List Nat :=
  s.toUTF8.toList.map (fun b => b.toNat)

/-- Kinds tagging the network requests a pipeline issues, in the order the
scripts can issue them: the token POST, the site lookup, the drive lookup,
then the terminal content GET / redirect GET / content PUT. -/
inductive ReqKind where
  | token
  | site
  | drive
  | content
  | redirect
  | put
deriving DecidableEq

/-- One network request issued by a script. -/
structure Request where
  kind : ReqKind
  method : String
  hostname : String
  path : String
  authHeader : Option String
  body : List Nat

/-- An HTTP response as the scripts observe it: status code, raw body text,
and the result of JSON.parse on that body (`none` when parsing throws). -/
structure HttpResponse where
  status : Nat
  rawBody : String
  jsonBody : Option Json

/-- Environment of one run of sharepoint-auth.js: the credential file content
(`none` = the file does not exist) and the token endpoint response
(`none` = transport error). -/
structure AuthEnv where
  credFile : Option String
  response : Option HttpResponse

/-- Outcome of one run of sharepoint-auth.js. -/
inductive AuthResult where
  | configMissing
  | configIncompleteTenant
  | configIncompleteClient
  | transportError
  | parseCrash
  | nullTokenCrash
  | authRejected (status : Nat) (body : String)
  | tokenPrinted (accessToken : Option Json)

/-- The form body of the token request, fields in URLSearchParams insertion
order. -/
def authPostData (cid csec : String) : String :=
  "grant_type=client_credentials&client_id=" ++ formEncode cid ++
    "&client_secret=" ++ formEncode csec ++
    "&scope=" ++ formEncode "https://graph.microsoft.com/.default"

/-- The token POST request of sharepoint-auth.js. -/
def authRequest (tenant cid csec : String) : Request :=
  { kind := .token
    method := "POST"
    hostname := "login.microsoftonline.com"
    path := "/" ++ tenant ++ "/oauth2/v2.0/token"
    authHeader := none
    body := strBytes (authPostData cid csec) }

/-- The response handler of sharepoint-auth.js: on 200 the body is parsed and
the access_token property printed (a body of null makes the property access
throw); on any other status the script reports the status and raw body and
exits nonzero. -/
def handleTokenResponse (resp : HttpResponse) : AuthResult :=
  if resp.status = 200 then
    match resp.jsonBody with
    | none => .parseCrash
    | some body =>
      match body.getField "access_token" with
      | .error _ => .nullTokenCrash
      | .ok tok => .tokenPrinted tok
  else .authRejected resp.status resp.rawBody

/-- One run of sharepoint-auth.js: outcome plus the list of network requests
issued. The negated condition of the source, missing client id or missing
client secret, is written here as the equivalent conjunction. -/
def runAuth (env : AuthEnv) : AuthResult × List Request :=
  match env.credFile with
  | none => (.configMissing, [])
  | some content =>
    if truthyStr (authTenant content) then
      if truthyStr (authClientId content) && truthyStr (authClientSecret content) then
        let req := authRequest ((authTenant content).getD "")
          ((authClientId content).getD "") ((authClientSecret content).getD "")
        match env.response with
        | none => (.transportError, [req])
        | some resp => (handleTokenResponse resp, [req])
      else (.configIncompleteClient, [])
    else (.configIncompleteTenant, [])

/-- Process exit code of sharepoint-auth.js. -/
def authExitCode : AuthResult → Nat
  | .tokenPrinted _ => 0
  | _ => 1

/-- Standard output line of sharepoint-auth.js, when it succeeds. -/
def authStdout : AuthResult → Option String
  | .tokenPrinted t => some (jsDisplayOpt t)
  | _ => none

/-- The token a calling script obtains from `execSync` of sharepoint-auth.js:
the trimmed standard output, available only when the auth script exits zero. -/
def acquiredToken (env : AuthEnv) : Option String :=
  match (runAuth env).1 with
  | .tokenPrinted t => some (jsTrim (jsDisplayOpt t))
  | _ => none

/-- Is `p` a leading segment of `l`. -/
def leadsList : List Char → List Char → Bool
  | [], _ => true
  | _ :: _, [] => false
  | p :: ps, c :: cs => p = c && leadsList ps cs

/-- Remove the first occurrence of `pat` from the list, leaving any later
occurrence intact. -/
def removeFirstOcc (pat : List Char) : List Char → List Char
  | [] => []
  | c :: rest =>
    if leadsList pat (c :: rest) then List.drop pat.length (c :: rest)
    else c :: removeFirstOcc pat rest

/-- JavaScript String.replace with a string pattern and an empty replacement
removes the first occurrence only. -/
def replaceFirst (s pat : String) : String :=
  String.mk (removeFirstOcc pat.data s.data)

/-- Tenant value of get-tenant.js: TEAMS_TENANT_ID, then TENANT, then
SHAREPOINT_TENANT. -/
def tenantValue (content : String) : Option String :=
  jsOr (authTenant content) (credValue content "SHAREPOINT_TENANT")

/-- One run of get-tenant.js: `none` models a nonzero exit (missing credential
file or no tenant configured), `some t` the tenant printed on standard output
with the first ".onmicrosoft.com" removed. -/
def runGetTenant (credFile : Option String) : Option String :=
  match credFile with
  | none => none
  | some content =>
    match tenantValue content with
    | some s => if s = "" then none else some (replaceFirst s ".onmicrosoft.com")
    | none => none

/-- A JSON-returning Graph response as makeRequest observes it: raw body and
the JSON.parse result (makeRequest never inspects the status code). -/
structure JsonResponse where
  rawBody : String
  jsonBody : Option Json

/-- Outcome of getSiteId / getDriveId: both issue makeRequest and then branch
on truthiness of the id property of the parsed body. -/
inductive ResolveOutcome where
  | transportError
  | invalidJson (raw : String)
  | nullCrash
  | notFound (data : Json)
  | ok (idv : Json)

/-- Shared shape of getSiteId and getDriveId: `none` response = transport
error; unparseable body = invalid JSON exit; parsed null = TypeError on the id
access; falsy or absent id = not-found exit; truthy id = continue with it. -/
def resolveId (resp : Option JsonResponse) : ResolveOutcome :=
  match resp with
  | none => .transportError
  | some r =>
    match r.jsonBody with
    | none => .invalidJson r.rawBody
    | some data =>
      match data.getField "id" with
      | .error _ => .nullCrash
      | .ok idv =>
        match idv with
        | some j => if j.truthy then .ok j else .notFound data
        | none => .notFound data

/-- Bearer authorization header carried by every authenticated request. -/
def bearer (token : String) : Option String :=
  some ("Bearer " ++ token)

/-- The site lookup GET issued by getSiteId. -/
def siteRequest (tenant siteName token : String) : Request :=
  { kind := .site
    method := "GET"
    hostname := "graph.microsoft.com"
    path := "/v1.0/sites/" ++ tenant ++ ".sharepoint.com:/sites/" ++ siteName
    authHeader := bearer token
    body := [] }

/-- The drive lookup GET issued by getDriveId. -/
def driveRequest (siteId : Json) (token : String) : Request :=
  { kind := .drive
    method := "GET"
    hostname := "graph.microsoft.com"
    path := "/v1.0/sites/" ++ siteId.jsToString ++ "/drive"
    authHeader := bearer token
    body := [] }

/-- The authenticated content GET issued by downloadFile. -/
def contentRequest (driveId : Json) (filePath token : String) : Request :=
  { kind := .content
    method := "GET"
    hostname := "graph.microsoft.com"
    path := "/v1.0/drives/" ++ driveId.jsToString ++ "/root:/" ++
      encodeURIComponent filePath ++ ":/content"
    authHeader := bearer token
    body := [] }

/-- Scheme-stripped remainder of an absolute http(s) URL, as the URL builtin
and https.get resolve it for the well-formed pre-signed redirect targets the
scripts see. -/
def urlRemainder (url : String) : List Char :=
  if leadsList ("https://").data url.data then List.drop 8 url.data
  else if leadsList ("http://").data url.data then List.drop 7 url.data
  else url.data

/-- Hostname of an absolute URL. -/
def urlHost (url : String) : String :=
  String.mk ((splitOnChar '/' (urlRemainder url)).headD [])

/-- Path of an absolute URL. -/
def urlPath (url : String) : String :=
  match splitOnChar '/' (urlRemainder url) with
  | [] => "/"
  | [_] => "/"
  | _ :: rest => String.mk ('/' :: List.intercalate ['/'] rest)

/-- The unauthenticated GET issued by downloadFromUrl on the redirect target:
https.get with a bare URL sends no Authorization header. -/
def redirectRequest (loc : String) : Request :=
  { kind := .redirect
    method := "GET"
    hostname := urlHost loc
    path := urlPath loc
    authHeader := none
    body := [] }

/-- The content response downloadFile observes: status, body bytes, and the
Location header when present. `none` in the environment = transport error. -/
structure ContentResponse where
  status : Nat
  body : List Nat
  location : Option String

/-- Environment of one run of sharepoint-download.js. The redirect response is
the status and body of the second GET (`none` = transport error there). -/
structure DownloadEnv where
  auth : AuthEnv
  siteResponse : Option JsonResponse
  driveResponse : Option JsonResponse
  contentResponse : Option ContentResponse
  redirectResponse : Option (Nat × List Nat)

/-- Observable result of one run of sharepoint-download.js: requests issued in
order, final content of the output path (`none` = absent or unlinked), exit
code, and whether the success message was printed. -/
structure DlOutcome where
  requests : List Request
  file : Option (List Nat)
  exitCode : Nat
  success : Bool

/-- downloadFromUrl: creates (truncates) the output file, issues the
unauthenticated GET, pipes whatever response arrives into the file without
inspecting its status code, and unlinks the file only on a transport error. -/
def downloadFromUrl (loc : String) (resp : Option (Nat × List Nat))
    (reqs : List Request) : DlOutcome :=
  let reqs2 := reqs ++ [redirectRequest loc]
  match resp with
  | none => { requests := reqs2, file := none, exitCode := 1, success := false }
  | some sb =>
    { requests := reqs2, file := some sb.2, exitCode := 0, success := true }

/-- downloadFile: the write stream is created before the request, so the
output file exists (truncated) in every later branch; 200 pipes the body; 301
and 302 follow the Location header (a missing header makes the URL constructor
throw); any other status, and a transport error, exit nonzero leaving the
created file in place. -/
def downloadFileStep (driveId : Json) (filePath token : String)
    (contentResponse : Option ContentResponse)
    (redirectResponse : Option (Nat × List Nat))
    (reqs : List Request) : DlOutcome :=
  let reqs2 := reqs ++ [contentRequest driveId filePath token]
  match contentResponse with
  | none => { requests := reqs2, file := some [], exitCode := 1, success := false }
  | some r =>
    if r.status = 200 then
      { requests := reqs2, file := some r.body, exitCode := 0, success := true }
    else if r.status = 302 ∨ r.status = 301 then
      match r.location with
      | none => { requests := reqs2, file := some [], exitCode := 1, success := false }
      | some loc => downloadFromUrl loc redirectResponse reqs2
    else
      { requests := reqs2, file := some [], exitCode := 1, success := false }

/-- One run of sharepoint-download.js: token via sharepoint-auth.js, tenant
via get-tenant.js, then the getSiteId - getDriveId - downloadFile chain, each
step firing only from the previous continuation. -/
def runDownload (siteName filePath : String) (env : DownloadEnv) : DlOutcome :=
  let authReqs := (runAuth env.auth).2
  match acquiredToken env.auth with
  | none => { requests := authReqs, file := none, exitCode := 1, success := false }
  | some token =>
    match runGetTenant env.auth.credFile with
    | none => { requests := authReqs, file := none, exitCode := 1, success := false }
    | some tenant =>
      let reqs1 := authReqs ++ [siteRequest tenant siteName token]
      match resolveId env.siteResponse with
      | .ok siteId =>
        let reqs2 := reqs1 ++ [driveRequest siteId token]
        match resolveId env.driveResponse with
        | .ok driveId =>
          downloadFileStep driveId filePath token
            env.contentResponse env.redirectResponse reqs2
        | _ => { requests := reqs2, file := none, exitCode := 1, success := false }
      | _ => { requests := reqs1, file := none, exitCode := 1, success := false }

/-- The 4 MiB threshold of sharepoint-upload.js. -/
def uploadThreshold : Nat := 4 * 1024 * 1024

/-- The single content PUT issued by uploadSmallFile. -/
def putRequest (driveId : Json) (remotePath token : String)
    (content : List Nat) : Request :=
  { kind := .put
    method := "PUT"
    hostname := "graph.microsoft.com"
    path := "/v1.0/drives/" ++ driveId.jsToString ++ "/root:/" ++
      encodeURIComponent remotePath ++ ":/content"
    authHeader := bearer token
    body := content }

/-- Outcome of one run of sharepoint-upload.js. -/
inductive UploadResult where
  | localMissing
  | authFailed
  | tenantFailed
  | resolveFailed
  | transportError
  | uploadRejected (status : Nat) (body : String)
  | uploadedParsed (name webUrl size : Option Json)
  | uploadedUnparsed
  | notImplemented

/-- Exit code of sharepoint-upload.js per outcome. -/
def uploadResultExit : UploadResult → Nat
  | .uploadedParsed _ _ _ => 0
  | .uploadedUnparsed => 0
  | _ => 1

/-- The PUT response handler of uploadSmallFile: 200 or 201 is success, the
name, webUrl and size properties of the parsed body are reported; the
try-catch around the parse and the property accesses turns an unparseable or
null body into the plain success message. Any other status exits nonzero with
the status and raw body. -/
def handlePutResponse (resp : HttpResponse) : UploadResult :=
  if resp.status = 200 ∨ resp.status = 201 then
    match resp.jsonBody with
    | none => .uploadedUnparsed
    | some j =>
      match j.getField "name", j.getField "webUrl", j.getField "size" with
      | .ok n, .ok w, .ok s => .uploadedParsed n w s
      | _, _, _ => .uploadedUnparsed
  else .uploadRejected resp.status resp.rawBody

/-- Environment of one run of sharepoint-upload.js: the local file content
(`none` = the file does not exist) and the responses of the chained calls. -/
structure UploadEnv where
  auth : AuthEnv
  localFile : Option (List Nat)
  siteResponse : Option JsonResponse
  driveResponse : Option JsonResponse
  putResponse : Option HttpResponse

/-- Observable result of one run of sharepoint-upload.js. -/
structure UploadOutcome where
  requests : List Request
  result : UploadResult
  exitCode : Nat

/-- One run of sharepoint-upload.js: local file existence is checked before
anything else; the token, site and drive steps then run exactly as in the
download script; only inside the drive continuation is the file size compared
with the 4 MiB threshold, choosing between the single content PUT and the
unimplemented large-file branch that exits nonzero at once. -/
def runUpload (siteName remotePath : String) (env : UploadEnv) : UploadOutcome :=
  match env.localFile with
  | none => { requests := [], result := .localMissing, exitCode := 1 }
  | some content =>
    let authReqs := (runAuth env.auth).2
    match acquiredToken env.auth with
    | none => { requests := authReqs, result := .authFailed, exitCode := 1 }
    | some token =>
      match runGetTenant env.auth.credFile with
      | none => { requests := authReqs, result := .tenantFailed, exitCode := 1 }
      | some tenant =>
        let reqs1 := authReqs ++ [siteRequest tenant siteName token]
        match resolveId env.siteResponse with
        | .ok siteId =>
          let reqs2 := reqs1 ++ [driveRequest siteId token]
          match resolveId env.driveResponse with
          | .ok driveId =>
            if content.length < uploadThreshold then
              let reqs3 := reqs2 ++ [putRequest driveId remotePath token content]
              match env.putResponse with
              | none =>
                { requests := reqs3, result := .transportError, exitCode := 1 }
              | some resp =>
                let r := handlePutResponse resp
                { requests := reqs3, result := r, exitCode := uploadResultExit r }
            else
              { requests := reqs2, result := .notImplemented, exitCode := 1 }
          | _ => { requests := reqs2, result := .resolveFailed, exitCode := 1 }
        | _ => { requests := reqs1, result := .resolveFailed, exitCode := 1 }

/-- The file entry sharepoint-list-files.js builds for one remote item. All
fields except the folder flag and the type are plain projections of possibly
absent properties. -/
structure FileEntry where
  name : Option Json
  size : Option Json
  webUrl : Option Json
  downloadUrl : Option Json
  lastModified : Option Json
  isFolder : Bool
  type : Json

/-- Optional chaining `v?.key`: null and undefined short-circuit to undefined
instead of throwing; any other non-object has no such own property. -/
def optChainField (v : Option Json) (key : String) : Option Json :=
  match v with
  | none => none
  | some .null => none
  | some (.obj fields) => lookupLast fields key
  | some _ => none

/-- JavaScript `a || b` where `a` is a possibly-undefined parsed value. -/
def jsOrJson (a : Option Json) (b : Json) : Json :=
  match a with
  | some j => if j.truthy then j else b
  | none => b

/-- The item-to-entry mapping of listFiles: one FileEntry per remote item,
the folder flag is the double-negated folder property, the type is the string
folder for folders and otherwise the optionally-chained file mime type with
the string file as fallback. The only way this can throw is a null item, on
the first property access. -/
def mapListItem (item : Json) : Except Unit FileEntry :=
  match item.getField "name" with
  | .error e => .error e
  | .ok name =>
  match item.getField "size" with
  | .error e => .error e
  | .ok size =>
  match item.getField "webUrl" with
  | .error e => .error e
  | .ok webUrl =>
  match item.getField "@microsoft.graph.downloadUrl" with
  | .error e => .error e
  | .ok downloadUrl =>
  match item.getField "lastModifiedDateTime" with
  | .error e => .error e
  | .ok lastModified =>
  match item.getField "folder" with
  | .error e => .error e
  | .ok folderv =>
  match item.getField "file" with
  | .error e => .error e
  | .ok filev =>
    .ok { name := name
          size := size
          webUrl := webUrl
          downloadUrl := downloadUrl
          lastModified := lastModified
          isFolder := truthyOpt folderv
          type := if truthyOpt folderv then .str "folder"
                  else jsOrJson (optChainField filev "mimeType") (.str "file") }

/-- Array.prototype.map over the remote items, kept structurally recursive so
order preservation is manifest; a thrown entry aborts the whole map. -/
def mapItems : List Json → Except Unit (List FileEntry)
  | [] => .ok []
  | item :: rest =>
    match mapListItem item with
    | .error e => .error e
    | .ok e =>
      match mapItems rest with
      | .error e2 => .error e2
      | .ok es => .ok (e :: es)

/-- Outcome of the listFiles response handler. -/
inductive ListOutcome where
  | transportError
  | invalidJson (raw : String)
  | nullCrash
  | unexpected (data : Json)
  | crashed
  | listed (entries : List FileEntry)

/-- The listFiles response handler: makeRequest parses the body, the value
property must be truthy (an empty array still is), and the entries are the
mapped items in response order, never re-sorted. A truthy non-array value or
a null item would make the map call throw. -/
def listChildren (resp : Option JsonResponse) : ListOutcome :=
  match resp with
  | none => .transportError
  | some r =>
    match r.jsonBody with
    | none => .invalidJson r.rawBody
    | some data =>
      match data.getField "value" with
      | .error _ => .nullCrash
      | .ok v =>
        if truthyOpt v then
          match v with
          | some (.arr items) =>
            match mapItems items with
            | .ok es => .listed es
            | .error _ => .crashed
          | _ => .crashed
        else .unexpected data

/-- Folder marker of a remote item: the folder property is present and
truthy (the Graph API emits a facet object for folders). -/
def hasFolderMarker (item : Json) : Bool :=
  match item.getField "folder" with
  | .ok v => truthyOpt v
  | .error _ => false

/-- Mime type of a remote item, through the optional chain of the source. -/
def mimeTypeOf (item : Json) : Option Json :=
  match item.getField "file" with
  | .ok v => optChainField v "mimeType"
  | .error _ => none

/-
Concrete environments used by counterexamples and witnesses.
-/

/-- A well-formed credential file content. -/
def wfCredContent : String :=
  "TEAMS_TENANT_ID=contoso.onmicrosoft.com\nTEAMS_CLIENT_ID=client123\nTEAMS_CLIENT_SECRET=secret456"

/-- An auth environment whose token request succeeds with token tok123. -/
def okAuthEnv : AuthEnv :=
  { credFile := some wfCredContent
    response := some { status := 200, rawBody := "tokenbody"
                       jsonBody := some (.obj [("access_token", .str "tok123")]) } }

/-- A site lookup response carrying an id. -/
def okSiteResp : JsonResponse :=
  { rawBody := "siteraw", jsonBody := some (.obj [("id", .str "site-id-1")]) }

/-- A drive lookup response carrying an id. -/
def okDriveResp : JsonResponse :=
  { rawBody := "driveraw", jsonBody := some (.obj [("id", .str "drive-id-1")]) }

/-- Download environment: content GET answers 200 with three bytes. -/
def dlEnv200 : DownloadEnv :=
  { auth := okAuthEnv
    siteResponse := some okSiteResp
    driveResponse := some okDriveResp
    contentResponse := some { status := 200, body := [1, 2, 3], location := none }
    redirectResponse := none }

/-- Download environment: content GET answers 404; the failing input of the
partial-file cleanup defect. -/
def dlEnv404 : DownloadEnv :=
  { auth := okAuthEnv
    siteResponse := some okSiteResp
    driveResponse := some okDriveResp
    contentResponse := some { status := 404, body := [], location := none }
    redirectResponse := none }

/-- Download environment: content GET answers 302 with a Location header, and
the second GET answers 403 with two bytes. -/
def dlEnvRedirect : DownloadEnv :=
  { auth := okAuthEnv
    siteResponse := some okSiteResp
    driveResponse := some okDriveResp
    contentResponse := some { status := 302, body := []
                              location := some "https://dl.example.com/signed/file.bin" }
    redirectResponse := some (403, [9, 9]) }

/-- A local file of exactly the 4 MiB threshold size. -/
def bigContent : List Nat :=
  List.replicate uploadThreshold 0

/-- Upload environment with the threshold-sized local file. -/
def upEnvBig : UploadEnv :=
  { auth := okAuthEnv
    localFile := some bigContent
    siteResponse := some okSiteResp
    driveResponse := some okDriveResp
    putResponse := none }

/-- Upload environment with a ten-byte local file and a 201 PUT response. -/
def upEnvSmall : UploadEnv :=
  { auth := okAuthEnv
    localFile := some [0, 1, 2, 3, 4, 5, 6, 7, 8, 9]
    siteResponse := some okSiteResp
    driveResponse := some okDriveResp
    putResponse := some { status := 201, rawBody := "okbody"
                          jsonBody := some (.obj [("name", .str "doc.txt"),
                            ("webUrl", .str "weburl1"), ("size", .num 10)]) } }

/-- A remote file item fixture. -/
def fileItem : Json :=
  .obj [("name", .str "a.txt"), ("size", .num 12),
        ("file", .obj [("mimeType", .str "text/plain")])]

/-- A remote folder item fixture. -/
def folderItem : Json :=
  .obj [("name", .str "sub"), ("folder", .obj [("childCount", .num 2)])]

/-- A children listing response with one file and one folder, in that order. -/
def listRespTwo : JsonResponse :=
  { rawBody := "listraw"
    jsonBody := some (.obj [("value", .arr [fileItem, folderItem])]) }

/-- An auth environment answering 200 with the JSON body null: valid JSON
without an access_token field. -/
def nullBodyAuthEnv : AuthEnv :=
  { credFile := some wfCredContent
    response := some { status := 200, rawBody := "null", jsonBody := some .null } }

/-- An auth environment answering 200 with an empty JSON object: valid JSON
without an access_token field. -/
def emptyObjAuthEnv : AuthEnv :=
  { credFile := some wfCredContent
    response := some { status := 200, rawBody := "emptyobj", jsonBody := some (.obj []) } }

/-
Helper lemmas about the auth step, shared by the pipeline theorems.
-/

theorem truthyStr_iff (a : Option String) :
    truthyStr a = true ↔ ∃ s, a = some s ∧ s ≠ "" := by
  cases a with
  | none => simp [truthyStr]
  | some s => simp [truthyStr]

theorem jsOr_of_truthy (a b : Option String) (h : truthyStr a = true) :
    jsOr a b = a := by
  rcases (truthyStr_iff a).mp h with ⟨s, rfl, hs⟩
  simp [jsOr, hs]

theorem runAuth_tokenPrinted_inv (env : AuthEnv) (t : Option Json)
    (h : (runAuth env).1 = .tokenPrinted t) :
    ∃ content resp,
      env.credFile = some content ∧
      truthyStr (authTenant content) = true ∧
      truthyStr (authClientId content) = true ∧
      truthyStr (authClientSecret content) = true ∧
      env.response = some resp ∧
      resp.status = 200 ∧
      (∃ j, resp.jsonBody = some j ∧ j.getField "access_token" = Except.ok t) ∧
      (runAuth env).2 = [authRequest ((authTenant content).getD "")
        ((authClientId content).getD "") ((authClientSecret content).getD "")] ∧
      acquiredToken env = some (jsTrim (jsDisplayOpt t)) := by
  have hacq : acquiredToken env = some (jsTrim (jsDisplayOpt t)) := by
    unfold acquiredToken
    rw [h]
  rcases env with ⟨credFile, response⟩
  rcases credFile with _ | content
  · simp [runAuth] at h
  · unfold runAuth at h
    cases ht : truthyStr (authTenant content) with
    | false => simp [ht] at h
    | true =>
      cases hci : truthyStr (authClientId content) with
      | false => simp [ht, hci] at h
      | true =>
        cases hcs : truthyStr (authClientSecret content) with
        | false => simp [ht, hci, hcs] at h
        | true =>
          rcases response with _ | resp
          · simp [ht, hci, hcs] at h
          · simp only [ht, hci, hcs, Bool.and_self, if_true] at h
            unfold handleTokenResponse at h
            by_cases hst : resp.status = 200
            · rw [if_pos hst] at h
              rcases hj : resp.jsonBody with _ | j
              · rw [hj] at h
                simp at h
              · rw [hj] at h
                dsimp only at h
                rcases hg : j.getField "access_token" with e | tok
                · rw [hg] at h
                  simp at h
                · rw [hg] at h
                  dsimp only at h
                  simp only [AuthResult.tokenPrinted.injEq] at h
                  subst h
                  exact ⟨content, resp, rfl, ht, hci, hcs, rfl, hst, ⟨j, hj, hg⟩,
                    by simp [runAuth, ht, hci, hcs], hacq⟩
            · rw [if_neg hst] at h
              simp at h

theorem runAuth_fst_of_wellformed (env : AuthEnv) (content : String)
    (resp : HttpResponse)
    (hc : env.credFile = some content)
    (ht : truthyStr (authTenant content) = true)
    (hci : truthyStr (authClientId content) = true)
    (hcs : truthyStr (authClientSecret content) = true)
    (hr : env.response = some resp) :
    (runAuth env).1 = handleTokenResponse resp := by
  rcases env with ⟨credFile, response⟩
  cases hc
  cases hr
  simp [runAuth, ht, hci, hcs]

theorem runGetTenant_of_authTenant (content : String)
    (h : truthyStr (authTenant content) = true) :
    ∃ s, runGetTenant (some content) = some s := by
  rcases (truthyStr_iff _).mp h with ⟨s, hs, hne⟩
  refine ⟨replaceFirst s ".onmicrosoft.com", ?_⟩
  unfold runGetTenant tenantValue
  dsimp only
  rw [jsOr_of_truthy _ _ h, hs]
  simp [hne]

/-- C3: for a well-formed credential record, the token acquisition prints the
token X exactly when the response has status 200 and a JSON body whose
access_token field is X; every non-200 response is rejected with the status
code and the raw body, and never yields a token. -/
theorem token_acquire_success_iff (env : AuthEnv) (content : String)
    (resp : HttpResponse) (x : String)
    (hc : env.credFile = some content)
    (ht : truthyStr (authTenant content) = true)
    (hci : truthyStr (authClientId content) = true)
    (hcs : truthyStr (authClientSecret content) = true)
    (hr : env.response = some resp) :
    ((runAuth env).1 = .tokenPrinted (some (.str x)) ↔
      resp.status = 200 ∧
        ∃ j, resp.jsonBody = some j ∧
          j.getField "access_token" = Except.ok (some (.str x))) ∧
    (resp.status ≠ 200 →
      (runAuth env).1 = .authRejected resp.status resp.rawBody ∧
        ∀ t, (runAuth env).1 ≠ .tokenPrinted t) := by
  have hfst := runAuth_fst_of_wellformed env content resp hc ht hci hcs hr
  constructor
  · constructor
    · intro hsucc
      rw [hfst] at hsucc
      unfold handleTokenResponse at hsucc
      by_cases hst : resp.status = 200
      · rw [if_pos hst] at hsucc
        refine ⟨hst, ?_⟩
        rcases hj : resp.jsonBody with _ | j
        · rw [hj] at hsucc
          simp at hsucc
        · rw [hj] at hsucc
          dsimp only at hsucc
          rcases hg : j.getField "access_token" with e | tok
          · rw [hg] at hsucc
            simp at hsucc
          · rw [hg] at hsucc
            dsimp only at hsucc
            simp only [AuthResult.tokenPrinted.injEq] at hsucc
            subst hsucc
            exact ⟨j, rfl, hg⟩
      · rw [if_neg hst] at hsucc
        simp at hsucc
    · rintro ⟨hst, j, hj, hg⟩
      rw [hfst]
      unfold handleTokenResponse
      rw [if_pos hst, hj]
      dsimp only
      rw [hg]
  · intro hst
    rw [hfst]
    unfold handleTokenResponse
    rw [if_neg hst]
    exact ⟨rfl, fun t h => by simp at h⟩

/-- Witness for C3 at a concrete 200 response carrying access_token tok123. -/
theorem token_acquire_success_iff_witness :
    (runAuth okAuthEnv).1 = AuthResult.tokenPrinted (some (Json.str "tok123")) := by
  have h := token_acquire_success_iff okAuthEnv wfCredContent
    { status := 200, rawBody := "tokenbody"
      jsonBody := some (.obj [("access_token", .str "tok123")]) }
    "tok123" rfl rfl rfl rfl rfl
  exact h.1.mpr ⟨rfl, ⟨_, rfl, rfl⟩⟩

/-- C8: a missing credential file yields the config-missing failure with no
network request issued; with the file present, a falsy tenant value (absent
TEAMS_TENANT_ID and TENANT) or a falsy client id or client secret yields the
respective config-incomplete failure, again with no network request. -/
theorem credential_load_failure_modes (env : AuthEnv) (content : String) :
    (env.credFile = none →
      (runAuth env).1 = .configMissing ∧ (runAuth env).2 = []) ∧
    (env.credFile = some content →
      (truthyStr (authTenant content) = false →
        (runAuth env).1 = .configIncompleteTenant ∧ (runAuth env).2 = []) ∧
      (truthyStr (authTenant content) = true →
        truthyStr (authClientId content) = false ∨
          truthyStr (authClientSecret content) = false →
        (runAuth env).1 = .configIncompleteClient ∧ (runAuth env).2 = [])) := by
  constructor
  · intro hc
    rcases env with ⟨cf, r⟩
    cases hc
    exact ⟨rfl, rfl⟩
  · intro hc
    rcases env with ⟨cf, r⟩
    cases hc
    constructor
    · intro ht
      simp [runAuth, ht]
    · intro ht hcl
      rcases hcl with hci | hcs
      · simp [runAuth, ht, hci]
      · simp [runAuth, ht, hcs]

/-- Witness for C8: a missing file and a file with only a tenant line. -/
theorem credential_load_failure_modes_witness :
    (runAuth { credFile := none, response := none }).1 = AuthResult.configMissing ∧
    (runAuth { credFile := none, response := none }).2 = [] ∧
    (runAuth { credFile := some "TEAMS_TENANT_ID=contoso", response := none }).1 =
      AuthResult.configIncompleteClient := by
  have h1 := credential_load_failure_modes { credFile := none, response := none } ""
  have h2 := credential_load_failure_modes
    { credFile := some "TEAMS_TENANT_ID=contoso", response := none }
    "TEAMS_TENANT_ID=contoso"
  exact ⟨(h1.1 rfl).1, (h1.1 rfl).2, ((h2.2 rfl).2 rfl (Or.inl rfl)).1⟩

/-- C10 counterexample: the 200 response whose body is the valid JSON text
null has no access_token field, yet the script does not print undefined and
exit zero: the property access on null throws, the process fails. -/
theorem token_missing_field_null_crash :
    nullBodyAuthEnv.response =
      some { status := 200, rawBody := "null", jsonBody := some Json.null } ∧
    (runAuth nullBodyAuthEnv).1 = AuthResult.nullTokenCrash ∧
    authExitCode (runAuth nullBodyAuthEnv).1 = 1 ∧
    authStdout (runAuth nullBodyAuthEnv).1 = none :=
  ⟨rfl, rfl, rfl, rfl⟩

/-- C10 (amended): for a 200 response whose body is valid JSON other than
null and carries no access_token field, the script prints undefined on
standard output and exits zero. -/
theorem token_missing_field_prints_undefined (env : AuthEnv) (content : String)
    (resp : HttpResponse) (j : Json)
    (hc : env.credFile = some content)
    (ht : truthyStr (authTenant content) = true)
    (hci : truthyStr (authClientId content) = true)
    (hcs : truthyStr (authClientSecret content) = true)
    (hr : env.response = some resp)
    (hst : resp.status = 200)
    (hj : resp.jsonBody = some j)
    (hno : j.getField "access_token" = Except.ok none) :
    (runAuth env).1 = .tokenPrinted none ∧
    authStdout (runAuth env).1 = some "undefined" ∧
    authExitCode (runAuth env).1 = 0 := by
  have hfst := runAuth_fst_of_wellformed env content resp hc ht hci hcs hr
  have hres : (runAuth env).1 = .tokenPrinted none := by
    rw [hfst]
    unfold handleTokenResponse
    rw [if_pos hst, hj]
    dsimp only
    rw [hno]
  refine ⟨hres, ?_, ?_⟩
  · rw [hres]
    rfl
  · rw [hres]
    rfl

/-- Witness for the amended C10 at a 200 response with an empty object body. -/
theorem token_missing_field_prints_undefined_witness :
    (runAuth emptyObjAuthEnv).1 = AuthResult.tokenPrinted none ∧
    authStdout (runAuth emptyObjAuthEnv).1 = some "undefined" ∧
    authExitCode (runAuth emptyObjAuthEnv).1 = 0 :=
  token_missing_field_prints_undefined emptyObjAuthEnv wfCredContent
    { status := 200, rawBody := "emptyobj", jsonBody := some (.obj []) } (.obj [])
    rfl rfl rfl rfl rfl rfl rfl rfl

/-
Lemmas reaching the terminal step of each pipeline under successful
resolution, shared by the file-operation theorems.
-/

theorem runDownload_reaches_content (siteName filePath : String)
    (env : DownloadEnv) (t : Option Json) (sid did : Json)
    (ht : (runAuth env.auth).1 = .tokenPrinted t)
    (hs : resolveId env.siteResponse = .ok sid)
    (hd : resolveId env.driveResponse = .ok did) :
    ∃ tok tenant,
      acquiredToken env.auth = some tok ∧
      runDownload siteName filePath env =
        downloadFileStep did filePath tok env.contentResponse env.redirectResponse
          ((runAuth env.auth).2 ++ [siteRequest tenant siteName tok] ++
            [driveRequest sid tok]) := by
  obtain ⟨content, resp, hc, hten, hci, hcs, hr, hst, _, htr, hacq⟩ :=
    runAuth_tokenPrinted_inv env.auth t ht
  obtain ⟨tn, htn⟩ := runGetTenant_of_authTenant content hten
  refine ⟨jsTrim (jsDisplayOpt t), tn, hacq, ?_⟩
  unfold runDownload
  rw [hacq]
  dsimp only
  rw [hc, htn]
  dsimp only
  rw [hs]
  dsimp only
  rw [hd]

/-- C2 (code defect): at the failing input where the content GET answers 404,
the download exits nonzero without printing success, yet the output file
created by the write stream is left in place truncated instead of being
removed; the unlink happens only in the redirect-transport-error branch,
shown last for contrast. -/
theorem download_failure_leaves_partial_file :
    (runDownload "TeamSite" "doc.txt" dlEnv404).exitCode = 1 ∧
    (runDownload "TeamSite" "doc.txt" dlEnv404).success = false ∧
    (runDownload "TeamSite" "doc.txt" dlEnv404).file = some [] ∧
    (downloadFromUrl "https://dl.example.com/x" none []).file = none :=
  ⟨rfl, rfl, rfl, rfl⟩

theorem downloadFileStep_redirect (did : Json) (filePath tok : String)
    (cr : ContentResponse) (rr : Option (Nat × List Nat))
    (reqs : List Request) (loc : String)
    (hredir : cr.status = 301 ∨ cr.status = 302) (hloc : cr.location = some loc) :
    downloadFileStep did filePath tok (some cr) rr reqs =
      downloadFromUrl loc rr (reqs ++ [contentRequest did filePath tok]) := by
  have hne : ¬ cr.status = 200 := by
    rcases hredir with h | h <;> omega
  unfold downloadFileStep
  dsimp only
  rw [if_neg hne, if_pos (by rcases hredir with h | h <;> simp [h]), hloc]

/-- The token printed by the auth script of the concrete success environment. -/
theorem okAuth_token_eval :
    (runAuth okAuthEnv).1 = AuthResult.tokenPrinted (some (Json.str "tok123")) :=
  rfl

/-- C4: once the pipeline reaches the content request, a 200 response writes
exactly the response body bytes to the output path; a 301 or 302 response
issues one more GET, to the URL of the Location header and without an
Authorization header, and the body of that second response is what lands in
the output path. -/
theorem download_writes_body_and_follows_redirect (siteName filePath : String)
    (env : DownloadEnv) (cr : ContentResponse)
    (hauth : ∃ t, (runAuth env.auth).1 = .tokenPrinted t)
    (hsite : ∃ s, resolveId env.siteResponse = .ok s)
    (hdrive : ∃ d, resolveId env.driveResponse = .ok d)
    (hc : env.contentResponse = some cr) :
    (cr.status = 200 →
      (runDownload siteName filePath env).file = some cr.body ∧
      (runDownload siteName filePath env).success = true ∧
      (runDownload siteName filePath env).exitCode = 0) ∧
    (∀ loc, (cr.status = 301 ∨ cr.status = 302) → cr.location = some loc →
      (runDownload siteName filePath env).requests.getLast? =
        some (redirectRequest loc) ∧
      (redirectRequest loc).authHeader = none ∧
      (redirectRequest loc).hostname = urlHost loc ∧
      (redirectRequest loc).path = urlPath loc ∧
      (∀ st body, env.redirectResponse = some (st, body) →
        (runDownload siteName filePath env).file = some body ∧
        (runDownload siteName filePath env).success = true ∧
        (runDownload siteName filePath env).exitCode = 0)) := by
  rcases hauth with ⟨t, ht⟩
  rcases hsite with ⟨sid, hs⟩
  rcases hdrive with ⟨did, hd⟩
  obtain ⟨tok, tn, hacq, hrun⟩ :=
    runDownload_reaches_content siteName filePath env t sid did ht hs hd
  rw [hrun]
  constructor
  · intro h200
    unfold downloadFileStep
    rw [hc]
    dsimp only
    rw [if_pos h200]
    exact ⟨rfl, rfl, rfl⟩
  · intro loc hredir hloc
    rw [hc, downloadFileStep_redirect did filePath tok cr env.redirectResponse
      _ loc hredir hloc]
    refine ⟨?_, rfl, rfl, rfl, ?_⟩
    · unfold downloadFromUrl
      rcases env.redirectResponse with _ | sb <;> simp
    · intro st body hrr
      rw [hrr]
      unfold downloadFromUrl
      exact ⟨rfl, rfl, rfl⟩

/-- Witness for C4 at the concrete 200 environment with body bytes one, two,
three, and at the redirect environment. -/
theorem download_writes_body_and_follows_redirect_witness :
    (runDownload "TeamSite" "doc.txt" dlEnv200).file = some [1, 2, 3] ∧
    (runDownload "TeamSite" "doc.txt" dlEnvRedirect).requests.getLast? =
      some (redirectRequest "https://dl.example.com/signed/file.bin") ∧
    (redirectRequest "https://dl.example.com/signed/file.bin").authHeader = none ∧
    (runDownload "TeamSite" "doc.txt" dlEnvRedirect).file = some [9, 9] := by
  have h200 := download_writes_body_and_follows_redirect "TeamSite" "doc.txt"
    dlEnv200 { status := 200, body := [1, 2, 3], location := none }
    ⟨some (.str "tok123"), okAuth_token_eval⟩
    ⟨.str "site-id-1", rfl⟩ ⟨.str "drive-id-1", rfl⟩ rfl
  have hred := download_writes_body_and_follows_redirect "TeamSite" "doc.txt"
    dlEnvRedirect
    { status := 302, body := [], location := some "https://dl.example.com/signed/file.bin" }
    ⟨some (.str "tok123"), okAuth_token_eval⟩
    ⟨.str "site-id-1", rfl⟩ ⟨.str "drive-id-1", rfl⟩ rfl
  have h2 := hred.2 "https://dl.example.com/signed/file.bin" (Or.inr rfl) rfl
  exact ⟨(h200.1 rfl).1, h2.1, h2.2.1, (h2.2.2.2.2 403 [9, 9] rfl).1⟩

/-- C9: after a 301 or 302 content response, the status code of the second
response is never inspected: whatever status arrives, even 403 or 500, its
body is written to the output path and the download reports success with exit
code zero. -/
theorem redirect_status_not_inspected (siteName filePath : String)
    (env : DownloadEnv) (cr : ContentResponse) (loc : String)
    (st : Nat) (body : List Nat)
    (hauth : ∃ t, (runAuth env.auth).1 = .tokenPrinted t)
    (hsite : ∃ s, resolveId env.siteResponse = .ok s)
    (hdrive : ∃ d, resolveId env.driveResponse = .ok d)
    (hc : env.contentResponse = some cr)
    (hredir : cr.status = 301 ∨ cr.status = 302)
    (hloc : cr.location = some loc)
    (hrr : env.redirectResponse = some (st, body)) :
    (runDownload siteName filePath env).file = some body ∧
    (runDownload siteName filePath env).success = true ∧
    (runDownload siteName filePath env).exitCode = 0 := by
  rcases hauth with ⟨t, ht⟩
  rcases hsite with ⟨sid, hs⟩
  rcases hdrive with ⟨did, hd⟩
  obtain ⟨tok, tn, hacq, hrun⟩ :=
    runDownload_reaches_content siteName filePath env t sid did ht hs hd
  rw [hrun, hc, downloadFileStep_redirect did filePath tok cr
    env.redirectResponse _ loc hredir hloc, hrr]
  unfold downloadFromUrl
  exact ⟨rfl, rfl, rfl⟩

/-- Witness for C9: the second response has status 403, its body still lands
in the output file and the run succeeds. -/
theorem redirect_status_not_inspected_witness :
    (runDownload "TeamSite" "doc.txt" dlEnvRedirect).file = some [9, 9] ∧
    (runDownload "TeamSite" "doc.txt" dlEnvRedirect).success = true ∧
    (runDownload "TeamSite" "doc.txt" dlEnvRedirect).exitCode = 0 :=
  redirect_status_not_inspected "TeamSite" "doc.txt" dlEnvRedirect
    { status := 302, body := [], location := some "https://dl.example.com/signed/file.bin" }
    "https://dl.example.com/signed/file.bin" 403 [9, 9]
    ⟨some (.str "tok123"), okAuth_token_eval⟩
    ⟨.str "site-id-1", rfl⟩ ⟨.str "drive-id-1", rfl⟩ rfl (Or.inr rfl) rfl rfl

theorem runUpload_reaches_size (siteName remotePath : String) (env : UploadEnv)
    (content : List Nat) (t : Option Json) (sid did : Json)
    (hf : env.localFile = some content)
    (ht : (runAuth env.auth).1 = .tokenPrinted t)
    (hs : resolveId env.siteResponse = .ok sid)
    (hd : resolveId env.driveResponse = .ok did) :
    ∃ tok tenant,
      acquiredToken env.auth = some tok ∧
      runUpload siteName remotePath env =
        (if content.length < uploadThreshold then
          match env.putResponse with
          | none =>
            { requests := (runAuth env.auth).2 ++
                [siteRequest tenant siteName tok] ++ [driveRequest sid tok] ++
                [putRequest did remotePath tok content]
              result := .transportError, exitCode := 1 }
          | some resp =>
            { requests := (runAuth env.auth).2 ++
                [siteRequest tenant siteName tok] ++ [driveRequest sid tok] ++
                [putRequest did remotePath tok content]
              result := handlePutResponse resp
              exitCode := uploadResultExit (handlePutResponse resp) }
        else
          { requests := (runAuth env.auth).2 ++
              [siteRequest tenant siteName tok] ++ [driveRequest sid tok]
            result := .notImplemented, exitCode := 1 }) := by
  obtain ⟨c, resp, hc, hten, hci, hcs, hr, hst, _, htr, hacq⟩ :=
    runAuth_tokenPrinted_inv env.auth t ht
  obtain ⟨tn, htn⟩ := runGetTenant_of_authTenant c hten
  refine ⟨jsTrim (jsDisplayOpt t), tn, hacq, ?_⟩
  unfold runUpload
  rw [hf]
  dsimp only
  rw [hacq]
  dsimp only
  rw [hc, htn]
  dsimp only
  rw [hs]
  dsimp only
  rw [hd]

/-- The kind sequence a download run can issue, in pipeline order. -/
def kindChainDownload : List ReqKind :=
  [.token, .site, .drive, .content, .redirect]

/-- The kind sequence an upload run can issue, in pipeline order. -/
def kindChainUpload : List ReqKind :=
  [.token, .site, .drive, .put]

theorem acquiredToken_some_inv (env : AuthEnv) (tok : String)
    (h : acquiredToken env = some tok) :
    ∃ t, (runAuth env).1 = .tokenPrinted t := by
  unfold acquiredToken at h
  split at h
  · next t heq => exact ⟨t, heq⟩
  · cases h

theorem trace_kind_at (tr : List Request) (chain : List ReqKind) (n i : Nat)
    (r : Request) (h : tr.map Request.kind = chain.take n)
    (hi : tr.get? i = some r) : chain.get? i = some r.kind := by
  have h1 : (tr.map Request.kind).get? i = some r.kind := by
    rw [List.get?_map, hi]
    rfl
  rw [h] at h1
  rcases Nat.lt_or_ge i n with hlt | hge
  · rw [List.get?_take hlt] at h1
    exact h1
  · have hnone : (chain.take n).get? i = none :=
      List.get?_eq_none.2 (le_trans (List.length_take_le n chain) hge)
    rw [hnone] at h1
    cases h1

theorem kindChainDownload_token_head :
    kindChainDownload.get? 0 = some ReqKind.token :=
  rfl

theorem kindChainDownload_site_index (i : Nat)
    (h : kindChainDownload.get? i = some ReqKind.site) : i = 1 := by
  match i with
  | 0 => simp [kindChainDownload] at h
  | 1 => rfl
  | 2 => simp [kindChainDownload] at h
  | 3 => simp [kindChainDownload] at h
  | 4 => simp [kindChainDownload] at h
  | n + 5 => simp [kindChainDownload] at h

theorem kindChainDownload_drive_index (i : Nat)
    (h : kindChainDownload.get? i = some ReqKind.drive) : i = 2 := by
  match i with
  | 0 => simp [kindChainDownload] at h
  | 1 => simp [kindChainDownload] at h
  | 2 => rfl
  | 3 => simp [kindChainDownload] at h
  | 4 => simp [kindChainDownload] at h
  | n + 5 => simp [kindChainDownload] at h

theorem kindChainDownload_content_index (i : Nat)
    (h : kindChainDownload.get? i = some ReqKind.content) : i = 3 := by
  match i with
  | 0 => simp [kindChainDownload] at h
  | 1 => simp [kindChainDownload] at h
  | 2 => simp [kindChainDownload] at h
  | 3 => rfl
  | 4 => simp [kindChainDownload] at h
  | n + 5 => simp [kindChainDownload] at h

theorem kindChainUpload_token_head :
    kindChainUpload.get? 0 = some ReqKind.token :=
  rfl

theorem kindChainUpload_site_index (i : Nat)
    (h : kindChainUpload.get? i = some ReqKind.site) : i = 1 := by
  match i with
  | 0 => simp [kindChainUpload] at h
  | 1 => rfl
  | 2 => simp [kindChainUpload] at h
  | 3 => simp [kindChainUpload] at h
  | n + 4 => simp [kindChainUpload] at h

theorem kindChainUpload_drive_index (i : Nat)
    (h : kindChainUpload.get? i = some ReqKind.drive) : i = 2 := by
  match i with
  | 0 => simp [kindChainUpload] at h
  | 1 => simp [kindChainUpload] at h
  | 2 => rfl
  | 3 => simp [kindChainUpload] at h
  | n + 4 => simp [kindChainUpload] at h

theorem kindChainUpload_put_index (i : Nat)
    (h : kindChainUpload.get? i = some ReqKind.put) : i = 3 := by
  match i with
  | 0 => simp [kindChainUpload] at h
  | 1 => simp [kindChainUpload] at h
  | 2 => simp [kindChainUpload] at h
  | 3 => rfl
  | n + 4 => simp [kindChainUpload] at h

theorem runUpload_trace_cases (siteName remotePath : String) (env : UploadEnv) :
    ((runUpload siteName remotePath env).requests = [] ∧
      (runUpload siteName remotePath env).exitCode = 1) ∨
    ((runUpload siteName remotePath env).requests = (runAuth env.auth).2 ∧
      (runUpload siteName remotePath env).exitCode = 1) ∨
    (∃ tok tn aReq,
      acquiredToken env.auth = some tok ∧
      (runAuth env.auth).2 = [aReq] ∧ aReq.kind = ReqKind.token ∧
      (((runUpload siteName remotePath env).requests =
          [aReq] ++ [siteRequest tn siteName tok] ∧
        (runUpload siteName remotePath env).exitCode = 1) ∨
       (∃ sid,
         (((runUpload siteName remotePath env).requests =
            [aReq] ++ [siteRequest tn siteName tok] ++ [driveRequest sid tok] ∧
           (runUpload siteName remotePath env).exitCode = 1) ∨
          (∃ did content,
            env.localFile = some content ∧
            content.length < uploadThreshold ∧
            (runUpload siteName remotePath env).requests =
              [aReq] ++ [siteRequest tn siteName tok] ++ [driveRequest sid tok] ++
                [putRequest did remotePath tok content]))))) := by
  unfold runUpload
  rcases hf : env.localFile with _ | content
  · exact Or.inl ⟨rfl, rfl⟩
  · dsimp only
    rcases hA : acquiredToken env.auth with _ | tok
    · exact Or.inr (Or.inl ⟨rfl, rfl⟩)
    · dsimp only
      obtain ⟨t, ht⟩ := acquiredToken_some_inv env.auth tok hA
      obtain ⟨c, resp, hc, hten, hci, hcs, hr, hst, _, htr, hacq⟩ :=
        runAuth_tokenPrinted_inv env.auth t ht
      rcases hT : runGetTenant env.auth.credFile with _ | tn
      · exact Or.inr (Or.inl ⟨rfl, rfl⟩)
      · dsimp only
        rw [htr]
        rcases hS : resolveId env.siteResponse with _ | raw | _ | data | sid
        · exact Or.inr (Or.inr ⟨tok, tn, _, rfl, rfl, rfl, Or.inl ⟨rfl, rfl⟩⟩)
        · exact Or.inr (Or.inr ⟨tok, tn, _, rfl, rfl, rfl, Or.inl ⟨rfl, rfl⟩⟩)
        · exact Or.inr (Or.inr ⟨tok, tn, _, rfl, rfl, rfl, Or.inl ⟨rfl, rfl⟩⟩)
        · exact Or.inr (Or.inr ⟨tok, tn, _, rfl, rfl, rfl, Or.inl ⟨rfl, rfl⟩⟩)
        · dsimp only
          rcases hD : resolveId env.driveResponse with _ | raw | _ | data | did
          · exact Or.inr (Or.inr ⟨tok, tn, _, rfl, rfl, rfl,
              Or.inr ⟨sid, Or.inl ⟨rfl, rfl⟩⟩⟩)
          · exact Or.inr (Or.inr ⟨tok, tn, _, rfl, rfl, rfl,
              Or.inr ⟨sid, Or.inl ⟨rfl, rfl⟩⟩⟩)
          · exact Or.inr (Or.inr ⟨tok, tn, _, rfl, rfl, rfl,
              Or.inr ⟨sid, Or.inl ⟨rfl, rfl⟩⟩⟩)
          · exact Or.inr (Or.inr ⟨tok, tn, _, rfl, rfl, rfl,
              Or.inr ⟨sid, Or.inl ⟨rfl, rfl⟩⟩⟩)
          · dsimp only
            by_cases hlt : content.length < uploadThreshold
            · rw [if_pos hlt]
              rcases hP : env.putResponse with _ | resp2
              · exact Or.inr (Or.inr ⟨tok, tn, _, rfl, rfl, rfl,
                  Or.inr ⟨sid, Or.inr ⟨did, content, rfl, hlt, rfl⟩⟩⟩)
              · exact Or.inr (Or.inr ⟨tok, tn, _, rfl, rfl, rfl,
                  Or.inr ⟨sid, Or.inr ⟨did, content, rfl, hlt, rfl⟩⟩⟩)
            · rw [if_neg hlt]
              exact Or.inr (Or.inr ⟨tok, tn, _, rfl, rfl, rfl,
                Or.inr ⟨sid, Or.inl ⟨rfl, rfl⟩⟩⟩)

theorem runDownload_trace_cases (siteName filePath : String) (env : DownloadEnv) :
    (runDownload siteName filePath env).requests = (runAuth env.auth).2 ∨
    (∃ tok tn aReq,
      acquiredToken env.auth = some tok ∧
      (runAuth env.auth).2 = [aReq] ∧ aReq.kind = ReqKind.token ∧
      ((runDownload siteName filePath env).requests =
          [aReq] ++ [siteRequest tn siteName tok] ∨
       (∃ sid,
         (runDownload siteName filePath env).requests =
            [aReq] ++ [siteRequest tn siteName tok] ++ [driveRequest sid tok] ∨
         (∃ did,
           (runDownload siteName filePath env).requests =
              [aReq] ++ [siteRequest tn siteName tok] ++ [driveRequest sid tok] ++
                [contentRequest did filePath tok] ∨
           (∃ loc,
             (runDownload siteName filePath env).requests =
                [aReq] ++ [siteRequest tn siteName tok] ++
                  [driveRequest sid tok] ++ [contentRequest did filePath tok] ++
                  [redirectRequest loc]))))) := by
  unfold runDownload
  rcases hA : acquiredToken env.auth with _ | tok
  · exact Or.inl rfl
  · dsimp only
    obtain ⟨t, ht⟩ := acquiredToken_some_inv env.auth tok hA
    obtain ⟨c, resp, hc, hten, hci, hcs, hr, hst, _, htr, hacq⟩ :=
      runAuth_tokenPrinted_inv env.auth t ht
    rcases hT : runGetTenant env.auth.credFile with _ | tn
    · exact Or.inl rfl
    · dsimp only
      rw [htr]
      rcases hS : resolveId env.siteResponse with _ | raw | _ | data | sid
      · exact Or.inr ⟨tok, tn, _, rfl, rfl, rfl, Or.inl rfl⟩
      · exact Or.inr ⟨tok, tn, _, rfl, rfl, rfl, Or.inl rfl⟩
      · exact Or.inr ⟨tok, tn, _, rfl, rfl, rfl, Or.inl rfl⟩
      · exact Or.inr ⟨tok, tn, _, rfl, rfl, rfl, Or.inl rfl⟩
      · dsimp only
        rcases hD : resolveId env.driveResponse with _ | raw | _ | data | did
        · exact Or.inr ⟨tok, tn, _, rfl, rfl, rfl, Or.inr ⟨sid, Or.inl rfl⟩⟩
        · exact Or.inr ⟨tok, tn, _, rfl, rfl, rfl, Or.inr ⟨sid, Or.inl rfl⟩⟩
        · exact Or.inr ⟨tok, tn, _, rfl, rfl, rfl, Or.inr ⟨sid, Or.inl rfl⟩⟩
        · exact Or.inr ⟨tok, tn, _, rfl, rfl, rfl, Or.inr ⟨sid, Or.inl rfl⟩⟩
        · unfold downloadFileStep
          dsimp only
          rcases hC : env.contentResponse with _ | cr
          · exact Or.inr ⟨tok, tn, _, rfl, rfl, rfl,
              Or.inr ⟨sid, Or.inr ⟨did, Or.inl rfl⟩⟩⟩
          · dsimp only
            by_cases h200 : cr.status = 200
            · rw [if_pos h200]
              exact Or.inr ⟨tok, tn, _, rfl, rfl, rfl,
                Or.inr ⟨sid, Or.inr ⟨did, Or.inl rfl⟩⟩⟩
            · rw [if_neg h200]
              by_cases hredir : cr.status = 302 ∨ cr.status = 301
              · rw [if_pos hredir]
                rcases hL : cr.location with _ | loc
                · exact Or.inr ⟨tok, tn, _, rfl, rfl, rfl,
                    Or.inr ⟨sid, Or.inr ⟨did, Or.inl rfl⟩⟩⟩
                · unfold downloadFromUrl
                  dsimp only
                  rcases hR : env.redirectResponse with _ | sb
                  · exact Or.inr ⟨tok, tn, _, rfl, rfl, rfl,
                      Or.inr ⟨sid, Or.inr ⟨did, Or.inr ⟨loc, rfl⟩⟩⟩⟩
                  · exact Or.inr ⟨tok, tn, _, rfl, rfl, rfl,
                      Or.inr ⟨sid, Or.inr ⟨did, Or.inr ⟨loc, rfl⟩⟩⟩⟩
              · rw [if_neg hredir]
                exact Or.inr ⟨tok, tn, _, rfl, rfl, rfl,
                  Or.inr ⟨sid, Or.inr ⟨did, Or.inl rfl⟩⟩⟩

theorem runAuth_trace_kinds (env : AuthEnv) :
    ∀ r ∈ (runAuth env).2, r.kind = ReqKind.token := by
  intro r hr
  unfold runAuth at hr
  rcases env with ⟨cf, rsp⟩
  rcases cf with _ | c
  · simp at hr
  · dsimp only at hr
    by_cases ht : truthyStr (authTenant c) = true
    · rw [if_pos ht] at hr
      by_cases hcl : (truthyStr (authClientId c) && truthyStr (authClientSecret c)) = true
      · rw [if_pos hcl] at hr
        rcases rsp with _ | resp
        · simp at hr
          rw [hr]
          rfl
        · simp at hr
          rw [hr]
          rfl
      · rw [if_neg hcl] at hr
        simp at hr
    · rw [if_neg ht] at hr
      simp at hr

theorem trace_get_kind (tr : List Request) (chain : List ReqKind) (n i : Nat)
    (h : tr.map Request.kind = chain.take n) (k : ReqKind)
    (hchain : chain.get? i = some k) (hlt : i < tr.length) :
    ∃ r, tr.get? i = some r ∧ r.kind = k := by
  have hr : tr.get? i = some (tr.get ⟨i, hlt⟩) := List.get?_eq_get hlt
  refine ⟨tr.get ⟨i, hlt⟩, hr, ?_⟩
  have hk := trace_kind_at tr chain n i (tr.get ⟨i, hlt⟩) h hr
  rw [hchain] at hk
  exact (Option.some.injEq _ _).mp hk.symm

theorem runAuth_snd_cases (env : AuthEnv) :
    (runAuth env).2 = [] ∨
    ∃ c, (runAuth env).2 = [authRequest ((authTenant c).getD "")
      ((authClientId c).getD "") ((authClientSecret c).getD "")] := by
  unfold runAuth
  rcases env with ⟨cf, rsp⟩
  rcases cf with _ | c
  · exact Or.inl rfl
  · dsimp only
    by_cases ht : truthyStr (authTenant c) = true
    · rw [if_pos ht]
      by_cases hcl : (truthyStr (authClientId c) && truthyStr (authClientSecret c)) = true
      · rw [if_pos hcl]
        rcases rsp with _ | resp
        · exact Or.inr ⟨c, rfl⟩
        · exact Or.inr ⟨c, rfl⟩
      · rw [if_neg hcl]
        exact Or.inl rfl
    · rw [if_neg ht]
      exact Or.inl rfl

theorem runDownload_kind_chain_take (siteName filePath : String) (env : DownloadEnv) :
    ∃ n, (runDownload siteName filePath env).requests.map Request.kind =
      kindChainDownload.take n := by
  rcases runDownload_trace_cases siteName filePath env with h |
    ⟨tok, tn, aReq, hacq, htr, haK, hsh⟩
  · rcases runAuth_snd_cases env.auth with ha | ⟨c, ha⟩
    · exact ⟨0, by rw [h, ha]; rfl⟩
    · exact ⟨1, by rw [h, ha]; rfl⟩
  · rcases hsh with hsh | ⟨sid, hsh | ⟨did, hsh | ⟨loc, hsh⟩⟩⟩
    · refine ⟨2, ?_⟩
      rw [hsh]
      simp [haK, siteRequest, kindChainDownload]
    · refine ⟨3, ?_⟩
      rw [hsh]
      simp [haK, siteRequest, driveRequest, kindChainDownload]
    · refine ⟨4, ?_⟩
      rw [hsh]
      simp [haK, siteRequest, driveRequest, contentRequest, kindChainDownload]
    · refine ⟨5, ?_⟩
      rw [hsh]
      simp [haK, siteRequest, driveRequest, contentRequest, redirectRequest,
        kindChainDownload]

theorem runUpload_kind_chain_take (siteName remotePath : String) (env : UploadEnv) :
    ∃ n, (runUpload siteName remotePath env).requests.map Request.kind =
      kindChainUpload.take n := by
  rcases runUpload_trace_cases siteName remotePath env with ⟨h, _⟩ | ⟨h, _⟩ |
    ⟨tok, tn, aReq, hacq, htr, haK, hsh⟩
  · exact ⟨0, by rw [h]; rfl⟩
  · rcases runAuth_snd_cases env.auth with ha | ⟨c, ha⟩
    · exact ⟨0, by rw [h, ha]; rfl⟩
    · exact ⟨1, by rw [h, ha]; rfl⟩
  · rcases hsh with ⟨hsh, _⟩ | ⟨sid, ⟨hsh, _⟩ | ⟨did, content, _, _, hsh⟩⟩
    · refine ⟨2, ?_⟩
      rw [hsh]
      simp [haK, siteRequest, kindChainUpload]
    · refine ⟨3, ?_⟩
      rw [hsh]
      simp [haK, siteRequest, driveRequest, kindChainUpload]
    · refine ⟨4, ?_⟩
      rw [hsh]
      simp [haK, siteRequest, driveRequest, putRequest, kindChainUpload]

theorem runDownload_resolver_headers (siteName filePath : String)
    (env : DownloadEnv) :
    ∀ r ∈ (runDownload siteName filePath env).requests,
      r.kind = ReqKind.site ∨ r.kind = ReqKind.drive →
      ∃ tok, acquiredToken env.auth = some tok ∧
        r.authHeader = some ("Bearer " ++ tok) := by
  rcases runDownload_trace_cases siteName filePath env with h |
    ⟨tok, tn, aReq, hacq, htr, haK, hsh⟩
  · intro r hr hk
    rw [h] at hr
    have hkr := runAuth_trace_kinds env.auth r hr
    rcases hk with hk | hk <;> rw [hkr] at hk <;> cases hk
  · intro r hr hk
    rcases hsh with hsh | ⟨sid, hsh | ⟨did, hsh | ⟨loc, hsh⟩⟩⟩ <;>
      rw [hsh] at hr <;>
      simp only [List.mem_append, List.mem_singleton] at hr
    · rcases hr with (hr | hr)
      · subst hr
        rcases hk with hk | hk <;> rw [haK] at hk <;> cases hk
      · subst hr
        exact ⟨tok, hacq, rfl⟩
    · rcases hr with ((hr | hr) | hr)
      · subst hr
        rcases hk with hk | hk <;> rw [haK] at hk <;> cases hk
      · subst hr
        exact ⟨tok, hacq, rfl⟩
      · subst hr
        exact ⟨tok, hacq, rfl⟩
    · rcases hr with (((hr | hr) | hr) | hr)
      · subst hr
        rcases hk with hk | hk <;> rw [haK] at hk <;> cases hk
      · subst hr
        exact ⟨tok, hacq, rfl⟩
      · subst hr
        exact ⟨tok, hacq, rfl⟩
      · subst hr
        rcases hk with hk | hk <;> cases hk
    · rcases hr with ((((hr | hr) | hr) | hr) | hr)
      · subst hr
        rcases hk with hk | hk <;> rw [haK] at hk <;> cases hk
      · subst hr
        exact ⟨tok, hacq, rfl⟩
      · subst hr
        exact ⟨tok, hacq, rfl⟩
      · subst hr
        rcases hk with hk | hk <;> cases hk
      · subst hr
        rcases hk with hk | hk <;> cases hk

theorem runUpload_resolver_headers (siteName remotePath : String)
    (env : UploadEnv) :
    ∀ r ∈ (runUpload siteName remotePath env).requests,
      r.kind = ReqKind.site ∨ r.kind = ReqKind.drive →
      ∃ tok, acquiredToken env.auth = some tok ∧
        r.authHeader = some ("Bearer " ++ tok) := by
  rcases runUpload_trace_cases siteName remotePath env with ⟨h, _⟩ | ⟨h, _⟩ |
    ⟨tok, tn, aReq, hacq, htr, haK, hsh⟩
  · intro r hr hk
    rw [h] at hr
    simp at hr
  · intro r hr hk
    rw [h] at hr
    have hkr := runAuth_trace_kinds env.auth r hr
    rcases hk with hk | hk <;> rw [hkr] at hk <;> cases hk
  · intro r hr hk
    rcases hsh with ⟨hsh, _⟩ | ⟨sid, ⟨hsh, _⟩ | ⟨did, content, _, _, hsh⟩⟩ <;>
      rw [hsh] at hr <;>
      simp only [List.mem_append, List.mem_singleton] at hr
    · rcases hr with (hr | hr)
      · subst hr
        rcases hk with hk | hk <;> rw [haK] at hk <;> cases hk
      · subst hr
        exact ⟨tok, hacq, rfl⟩
    · rcases hr with ((hr | hr) | hr)
      · subst hr
        rcases hk with hk | hk <;> rw [haK] at hk <;> cases hk
      · subst hr
        exact ⟨tok, hacq, rfl⟩
      · subst hr
        exact ⟨tok, hacq, rfl⟩
    · rcases hr with (((hr | hr) | hr) | hr)
      · subst hr
        rcases hk with hk | hk <;> rw [haK] at hk <;> cases hk
      · subst hr
        exact ⟨tok, hacq, rfl⟩
      · subst hr
        exact ⟨tok, hacq, rfl⟩
      · subst hr
        rcases hk with hk | hk <;> cases hk

theorem runDownload_site_after_token (siteName filePath : String)
    (env : DownloadEnv) (i : Nat) (r : Request)
    (hi : (runDownload siteName filePath env).requests.get? i = some r)
    (hk : r.kind = ReqKind.site) :
    0 < i ∧ ∃ r0, (runDownload siteName filePath env).requests.get? 0 = some r0 ∧
      r0.kind = ReqKind.token := by
  obtain ⟨n, hpre⟩ := runDownload_kind_chain_take siteName filePath env
  have hchain := trace_kind_at _ kindChainDownload n i r hpre hi
  rw [hk] at hchain
  have hi1 := kindChainDownload_site_index i hchain
  subst hi1
  obtain ⟨hlt, -⟩ := List.get?_eq_some.mp hi
  obtain ⟨r0, h0, hk0⟩ :=
    trace_get_kind _ kindChainDownload n 0 hpre ReqKind.token rfl (by omega)
  exact ⟨Nat.zero_lt_one, r0, h0, hk0⟩

theorem runDownload_drive_after_site (siteName filePath : String)
    (env : DownloadEnv) (i : Nat) (r : Request)
    (hi : (runDownload siteName filePath env).requests.get? i = some r)
    (hk : r.kind = ReqKind.drive) :
    ∃ j r1, j < i ∧
      (runDownload siteName filePath env).requests.get? j = some r1 ∧
      r1.kind = ReqKind.site := by
  obtain ⟨n, hpre⟩ := runDownload_kind_chain_take siteName filePath env
  have hchain := trace_kind_at _ kindChainDownload n i r hpre hi
  rw [hk] at hchain
  have hi2 := kindChainDownload_drive_index i hchain
  subst hi2
  obtain ⟨hlt, -⟩ := List.get?_eq_some.mp hi
  obtain ⟨r1, h1, hk1⟩ :=
    trace_get_kind _ kindChainDownload n 1 hpre ReqKind.site rfl (by omega)
  exact ⟨1, r1, Nat.one_lt_two, h1, hk1⟩

theorem runUpload_site_after_token (siteName remotePath : String)
    (env : UploadEnv) (i : Nat) (r : Request)
    (hi : (runUpload siteName remotePath env).requests.get? i = some r)
    (hk : r.kind = ReqKind.site) :
    0 < i ∧ ∃ r0, (runUpload siteName remotePath env).requests.get? 0 = some r0 ∧
      r0.kind = ReqKind.token := by
  obtain ⟨n, hpre⟩ := runUpload_kind_chain_take siteName remotePath env
  have hchain := trace_kind_at _ kindChainUpload n i r hpre hi
  rw [hk] at hchain
  have hi1 := kindChainUpload_site_index i hchain
  subst hi1
  obtain ⟨hlt, -⟩ := List.get?_eq_some.mp hi
  obtain ⟨r0, h0, hk0⟩ :=
    trace_get_kind _ kindChainUpload n 0 hpre ReqKind.token rfl (by omega)
  exact ⟨Nat.zero_lt_one, r0, h0, hk0⟩

theorem runUpload_drive_after_site (siteName remotePath : String)
    (env : UploadEnv) (i : Nat) (r : Request)
    (hi : (runUpload siteName remotePath env).requests.get? i = some r)
    (hk : r.kind = ReqKind.drive) :
    ∃ j r1, j < i ∧
      (runUpload siteName remotePath env).requests.get? j = some r1 ∧
      r1.kind = ReqKind.site := by
  obtain ⟨n, hpre⟩ := runUpload_kind_chain_take siteName remotePath env
  have hchain := trace_kind_at _ kindChainUpload n i r hpre hi
  rw [hk] at hchain
  have hi2 := kindChainUpload_drive_index i hchain
  subst hi2
  obtain ⟨hlt, -⟩ := List.get?_eq_some.mp hi
  obtain ⟨r1, h1, hk1⟩ :=
    trace_get_kind _ kindChainUpload n 1 hpre ReqKind.site rfl (by omega)
  exact ⟨1, r1, Nat.one_lt_two, h1, hk1⟩

/-- C7: in every download and upload pipeline run, the issued request kinds
form a prefix of the fixed chain token, site, drive, terminal operation, so no
step is skipped or reordered; a site lookup fires only after the token request
(at position zero) and only when a token was actually acquired; a drive lookup
only after a site lookup; and every resolver request carries the acquired
token in its Authorization header. -/
theorem resolution_strictly_ordered (siteName filePath remotePath : String)
    (denv : DownloadEnv) (uenv : UploadEnv) :
    ((∃ n, (runDownload siteName filePath denv).requests.map Request.kind =
        kindChainDownload.take n) ∧
     (∀ i r, (runDownload siteName filePath denv).requests.get? i = some r →
        r.kind = ReqKind.site →
        0 < i ∧ ∃ r0, (runDownload siteName filePath denv).requests.get? 0 =
          some r0 ∧ r0.kind = ReqKind.token) ∧
     (∀ i r, (runDownload siteName filePath denv).requests.get? i = some r →
        r.kind = ReqKind.drive →
        ∃ j r1, j < i ∧
          (runDownload siteName filePath denv).requests.get? j = some r1 ∧
          r1.kind = ReqKind.site) ∧
     (∀ r ∈ (runDownload siteName filePath denv).requests,
        r.kind = ReqKind.site ∨ r.kind = ReqKind.drive →
        ∃ tok, acquiredToken denv.auth = some tok ∧
          r.authHeader = some ("Bearer " ++ tok))) ∧
    ((∃ n, (runUpload siteName remotePath uenv).requests.map Request.kind =
        kindChainUpload.take n) ∧
     (∀ i r, (runUpload siteName remotePath uenv).requests.get? i = some r →
        r.kind = ReqKind.site →
        0 < i ∧ ∃ r0, (runUpload siteName remotePath uenv).requests.get? 0 =
          some r0 ∧ r0.kind = ReqKind.token) ∧
     (∀ i r, (runUpload siteName remotePath uenv).requests.get? i = some r →
        r.kind = ReqKind.drive →
        ∃ j r1, j < i ∧
          (runUpload siteName remotePath uenv).requests.get? j = some r1 ∧
          r1.kind = ReqKind.site) ∧
     (∀ r ∈ (runUpload siteName remotePath uenv).requests,
        r.kind = ReqKind.site ∨ r.kind = ReqKind.drive →
        ∃ tok, acquiredToken uenv.auth = some tok ∧
          r.authHeader = some ("Bearer " ++ tok))) :=
  ⟨⟨runDownload_kind_chain_take siteName filePath denv,
    runDownload_site_after_token siteName filePath denv,
    runDownload_drive_after_site siteName filePath denv,
    runDownload_resolver_headers siteName filePath denv⟩,
   ⟨runUpload_kind_chain_take siteName remotePath uenv,
    runUpload_site_after_token siteName remotePath uenv,
    runUpload_drive_after_site siteName remotePath uenv,
    runUpload_resolver_headers siteName remotePath uenv⟩⟩

/-- Witness for C7 at the concrete environments: in the successful download
run the site lookup sits at position one, after the token request at position
zero, and the drive lookup follows a site lookup. -/
theorem resolution_strictly_ordered_witness :
    (0 < 1 ∧ ∃ r0, (runDownload "TeamSite" "doc.txt" dlEnv200).requests.get? 0 =
        some r0 ∧ r0.kind = ReqKind.token) ∧
    (∃ j r1, j < 2 ∧
      (runDownload "TeamSite" "doc.txt" dlEnv200).requests.get? j = some r1 ∧
      r1.kind = ReqKind.site) := by
  have h := resolution_strictly_ordered "TeamSite" "doc.txt" "doc.txt"
    dlEnv200 upEnvSmall
  exact ⟨h.1.2.1 1 (siteRequest "contoso" "TeamSite" "tok123") rfl rfl,
         h.1.2.2.1 2 (driveRequest (.str "site-id-1") "tok123") rfl rfl⟩

theorem bigContent_length : bigContent.length = uploadThreshold := by
  simp [bigContent]

/-- C1 counterexample: with a local file of exactly 4194304 bytes the upload
does end in the not-implemented failure, but only after issuing three network
requests: the token POST, the site lookup and the drive lookup; the claim that
no network call is issued is false. -/
theorem upload_large_resolves_before_failing :
    bigContent.length = 4194304 ∧
    (runUpload "TeamSite" "doc.txt" upEnvBig).result =
      UploadResult.notImplemented ∧
    (runUpload "TeamSite" "doc.txt" upEnvBig).requests.map Request.kind =
      [ReqKind.token, ReqKind.site, ReqKind.drive] := by
  obtain ⟨tok, tn, hacq, hrun⟩ := runUpload_reaches_size "TeamSite" "doc.txt"
    upEnvBig bigContent (some (.str "tok123")) (.str "site-id-1")
    (.str "drive-id-1") rfl okAuth_token_eval rfl rfl
  have hnlt : ¬ bigContent.length < uploadThreshold := by
    rw [bigContent_length]
    exact lt_irrefl _
  refine ⟨by rw [bigContent_length]; rfl, ?_, ?_⟩
  · rw [hrun, if_neg hnlt]
  · rw [hrun, if_neg hnlt]
    have htr : (runAuth upEnvBig.auth).2 =
        [authRequest "contoso.onmicrosoft.com" "client123" "secret456"] := rfl
    dsimp only
    rw [htr]
    rfl

theorem runUpload_exitCode_cases (siteName remotePath : String)
    (env : UploadEnv) (content : List Nat)
    (hf : env.localFile = some content)
    (hnlt : ¬ content.length < uploadThreshold) :
    (∀ r ∈ (runUpload siteName remotePath env).requests,
      r.kind ≠ ReqKind.put) ∧
    (runUpload siteName remotePath env).exitCode = 1 := by
  have hcases := runUpload_trace_cases siteName remotePath env
  rcases hcases with ⟨h, he⟩ | ⟨h, he⟩ | ⟨tok, tn, aReq, hacq, htr, haK, hsh⟩
  · constructor
    · intro r hr
      rw [h] at hr
      simp at hr
    · exact he
  · constructor
    · intro r hr
      rw [h] at hr
      rw [runAuth_trace_kinds env.auth r hr]
      simp
    · exact he
  · rcases hsh with ⟨hsh, he⟩ | ⟨sid, ⟨hsh, he⟩ | ⟨did, content2, hf2, hlt2, hsh⟩⟩
    · constructor
      · intro r hr
        rw [hsh] at hr
        simp only [List.mem_append, List.mem_singleton] at hr
        rcases hr with hr | hr
        · subst hr
          rw [haK]
          simp
        · subst hr
          simp [siteRequest]
      · exact he
    · constructor
      · intro r hr
        rw [hsh] at hr
        simp only [List.mem_append, List.mem_singleton] at hr
        rcases hr with (hr | hr) | hr
        · subst hr
          rw [haK]
          simp
        · subst hr
          simp [siteRequest]
        · subst hr
          simp [driveRequest]
      · exact he
    · rw [hf] at hf2
      injection hf2 with hx
      subst hx
      exact absurd hlt2 hnlt

/-- C1 (amended): for every local file of at least 4 MiB the upload never
issues a PUT and always exits nonzero; when token acquisition and the site and
drive resolutions succeed, the outcome is the not-implemented failure. The
token request and the resolver calls are still issued before that failure, as
the counterexample shows, so the original no-network-call claim is corrected
to no-PUT. -/
theorem upload_large_not_implemented_no_put (siteName remotePath : String)
    (env : UploadEnv) (content : List Nat)
    (hf : env.localFile = some content)
    (hsize : uploadThreshold ≤ content.length) :
    (∀ r ∈ (runUpload siteName remotePath env).requests,
      r.kind ≠ ReqKind.put) ∧
    (runUpload siteName remotePath env).exitCode = 1 ∧
    ((∃ t, (runAuth env.auth).1 = .tokenPrinted t) →
      (∃ s, resolveId env.siteResponse = .ok s) →
      (∃ d, resolveId env.driveResponse = .ok d) →
      (runUpload siteName remotePath env).result =
        UploadResult.notImplemented) := by
  have hnlt : ¬ content.length < uploadThreshold := not_lt.mpr hsize
  obtain ⟨hnoput, hexit⟩ :=
    runUpload_exitCode_cases siteName remotePath env content hf hnlt
  refine ⟨hnoput, hexit, ?_⟩
  rintro ⟨t, ht⟩ ⟨sid, hs⟩ ⟨did, hd⟩
  obtain ⟨tok, tn, hacq, hrun⟩ :=
    runUpload_reaches_size siteName remotePath env content t sid did hf ht hs hd
  rw [hrun, if_neg hnlt]

/-- Witness for the amended C1 at the threshold-sized concrete environment. -/
theorem upload_large_not_implemented_no_put_witness :
    (∀ r ∈ (runUpload "TeamSite" "doc.txt" upEnvBig).requests,
      r.kind ≠ ReqKind.put) ∧
    (runUpload "TeamSite" "doc.txt" upEnvBig).exitCode = 1 ∧
    (runUpload "TeamSite" "doc.txt" upEnvBig).result =
      UploadResult.notImplemented := by
  have h := upload_large_not_implemented_no_put "TeamSite" "doc.txt" upEnvBig
    bigContent rfl (le_of_eq bigContent_length.symm)
  exact ⟨h.1, h.2.1, h.2.2 ⟨some (.str "tok123"), okAuth_token_eval⟩
    ⟨.str "site-id-1", rfl⟩ ⟨.str "drive-id-1", rfl⟩⟩

theorem json_getField_ok_of_ne_null (j : Json) (k : String) (h : j ≠ .null) :
    ∃ v, j.getField k = Except.ok v := by
  cases j with
  | null => exact absurd rfl h
  | bool b => exact ⟨none, rfl⟩
  | num n => exact ⟨none, rfl⟩
  | str s => exact ⟨none, rfl⟩
  | arr a => exact ⟨none, rfl⟩
  | obj f => exact ⟨lookupLast f k, rfl⟩

/-- C5: for a local file strictly below the 4 MiB threshold, the upload
issues exactly one PUT, the last request of the run, whose body is exactly the
file bytes and which carries the acquired bearer token; on a 200 or 201
response with a parseable non-null JSON body the run succeeds with exit code
zero and reports the name, webUrl and size properties of that body. -/
theorem upload_small_single_put (siteName remotePath : String)
    (env : UploadEnv) (content : List Nat)
    (hf : env.localFile = some content)
    (hsize : content.length < uploadThreshold)
    (hauth : ∃ t, (runAuth env.auth).1 = .tokenPrinted t)
    (hsite : ∃ s, resolveId env.siteResponse = .ok s)
    (hdrive : ∃ d, resolveId env.driveResponse = .ok d) :
    (∃ pre req,
      (runUpload siteName remotePath env).requests = pre ++ [req] ∧
      (∀ r ∈ pre, r.kind ≠ ReqKind.put) ∧
      req.kind = ReqKind.put ∧ req.method = "PUT" ∧ req.body = content ∧
      ∃ tok, acquiredToken env.auth = some tok ∧
        req.authHeader = some ("Bearer " ++ tok)) ∧
    (∀ resp, env.putResponse = some resp →
      (resp.status = 200 ∨ resp.status = 201) →
      ∀ j, resp.jsonBody = some j → j ≠ .null →
        ∃ n w s, j.getField "name" = Except.ok n ∧
          j.getField "webUrl" = Except.ok w ∧
          j.getField "size" = Except.ok s ∧
          (runUpload siteName remotePath env).result =
            UploadResult.uploadedParsed n w s ∧
          (runUpload siteName remotePath env).exitCode = 0) := by
  rcases hauth with ⟨t, ht⟩
  rcases hsite with ⟨sid, hs⟩
  rcases hdrive with ⟨did, hd⟩
  obtain ⟨c, resp0, hc, hten, hci, hcs, hr0, hst0, _, htr, _⟩ :=
    runAuth_tokenPrinted_inv env.auth t ht
  obtain ⟨tok, tn, hacq, hrun⟩ :=
    runUpload_reaches_size siteName remotePath env content t sid did hf ht hs hd
  have hput : ∀ tr : List Request,
      tr = (runAuth env.auth).2 ++ [siteRequest tn siteName tok] ++
        [driveRequest sid tok] ++ [putRequest did remotePath tok content] →
      ∃ pre req, tr = pre ++ [req] ∧
        (∀ r ∈ pre, r.kind ≠ ReqKind.put) ∧
        req.kind = ReqKind.put ∧ req.method = "PUT" ∧ req.body = content ∧
        ∃ tok2, acquiredToken env.auth = some tok2 ∧
          req.authHeader = some ("Bearer " ++ tok2) := by
    intro tr hres
    refine ⟨(runAuth env.auth).2 ++ [siteRequest tn siteName tok] ++
      [driveRequest sid tok], putRequest did remotePath tok content,
      by rw [hres], ?_, rfl, rfl, rfl, tok, hacq, rfl⟩
    intro r hr
    rw [htr] at hr
    simp only [List.mem_append, List.mem_singleton] at hr
    rcases hr with (hr | hr) | hr
    · subst hr
      simp [authRequest]
    · subst hr
      simp [siteRequest]
    · subst hr
      simp [driveRequest]
  rw [hrun, if_pos hsize]
  rcases hP : env.putResponse with _ | resp
  · dsimp only
    constructor
    · exact hput _ rfl
    · intro resp hx
      cases hx
  · dsimp only
    constructor
    · exact hput _ rfl
    · intro resp2 hresp2
      injection hresp2 with he
      subst he
      intro hstat j hj hnn
      obtain ⟨n, hn⟩ := json_getField_ok_of_ne_null j "name" hnn
      obtain ⟨w, hw⟩ := json_getField_ok_of_ne_null j "webUrl" hnn
      obtain ⟨s, hs2⟩ := json_getField_ok_of_ne_null j "size" hnn
      have hres : handlePutResponse resp = .uploadedParsed n w s := by
        unfold handlePutResponse
        rw [if_pos hstat, hj]
        dsimp only
        rw [hn, hw, hs2]
      exact ⟨n, w, s, hn, hw, hs2, by rw [hres], by rw [hres]; rfl⟩

/-- Witness for C5 at the ten-byte concrete upload environment. -/
theorem upload_small_single_put_witness :
    ∃ n w s,
      (runUpload "TeamSite" "doc.txt" upEnvSmall).result =
        UploadResult.uploadedParsed n w s ∧
      (runUpload "TeamSite" "doc.txt" upEnvSmall).exitCode = 0 ∧
      ∃ pre req,
        (runUpload "TeamSite" "doc.txt" upEnvSmall).requests = pre ++ [req] ∧
        req.body = [0, 1, 2, 3, 4, 5, 6, 7, 8, 9] := by
  have h := upload_small_single_put "TeamSite" "doc.txt" upEnvSmall
    [0, 1, 2, 3, 4, 5, 6, 7, 8, 9] rfl (by norm_num [uploadThreshold])
    ⟨some (.str "tok123"), okAuth_token_eval⟩ ⟨.str "site-id-1", rfl⟩
    ⟨.str "drive-id-1", rfl⟩
  obtain ⟨⟨pre, req, hl, hpre, hk, hm, hb, hh⟩, h2⟩ := h
  obtain ⟨n, w, s, hn, hw, hs, hres, hexit⟩ :=
    h2 _ rfl (Or.inr rfl) _ rfl (by intro hx; cases hx)
  exact ⟨n, w, s, hres, hexit, pre, req, hl, hb⟩

theorem mapItems_cons_inv (item : Json) (rest : List Json)
    (es : List FileEntry) (h : mapItems (item :: rest) = .ok es) :
    ∃ e es2, mapListItem item = .ok e ∧ mapItems rest = .ok es2 ∧
      es = e :: es2 := by
  unfold mapItems at h
  rcases he : mapListItem item with e | e <;> rw [he] at h <;> dsimp only at h
  · cases h
  · rcases hr : mapItems rest with e2 | es2 <;> rw [hr] at h <;> dsimp only at h
    · cases h
    · injection h with hx
      exact ⟨e, es2, rfl, rfl, hx.symm⟩

theorem mapItems_ok_get (items : List Json) (es : List FileEntry)
    (h : mapItems items = .ok es) :
    es.length = items.length ∧
    ∀ i item, items.get? i = some item →
      ∃ e, es.get? i = some e ∧ mapListItem item = .ok e := by
  induction items generalizing es with
  | nil =>
    unfold mapItems at h
    injection h with hx
    subst hx
    refine ⟨rfl, ?_⟩
    intro i item hi
    simp at hi
  | cons item rest ih =>
    obtain ⟨e, es2, he, hr, rfl⟩ := mapItems_cons_inv item rest es h
    obtain ⟨hlen, hget⟩ := ih es2 hr
    refine ⟨by simp [hlen], ?_⟩
    intro i it hi
    match i with
    | 0 =>
      simp only [List.get?] at hi
      injection hi with hx
      subst hx
      exact ⟨e, rfl, he⟩
    | n + 1 =>
      simp only [List.get?] at hi
      obtain ⟨e2, hx, hy⟩ := hget n it hi
      exact ⟨e2, hx, hy⟩

theorem mapListItem_fields (item : Json) (e : FileEntry)
    (h : mapListItem item = .ok e) :
    e.isFolder = hasFolderMarker item ∧
    (hasFolderMarker item = false →
      ∀ t, mimeTypeOf item = some t → t.truthy = true → e.type = t) := by
  cases item with
  | null => cases h
  | bool b =>
    injection h with hx
    subst hx
    exact ⟨rfl, by intro _ t hmt; cases hmt⟩
  | num n =>
    injection h with hx
    subst hx
    exact ⟨rfl, by intro _ t hmt; cases hmt⟩
  | str s =>
    injection h with hx
    subst hx
    exact ⟨rfl, by intro _ t hmt; cases hmt⟩
  | arr a =>
    injection h with hx
    subst hx
    exact ⟨rfl, by intro _ t hmt; cases hmt⟩
  | obj fields =>
    injection h with hx
    subst hx
    refine ⟨rfl, ?_⟩
    intro hnf t hmt htt
    have hfv : truthyOpt (lookupLast fields "folder") = false := hnf
    have hmt2 : optChainField (lookupLast fields "file") "mimeType" = some t := hmt
    dsimp only
    rw [if_neg (by rw [hfv]; exact Bool.false_ne_true), hmt2]
    unfold jsOrJson
    dsimp only
    rw [if_pos htt]

/-- C6: for every children-listing response whose value property is an array
of items, the handler produces exactly one FileEntry per item, at the same
position as the item (the remote order, never re-sorted); every entry sets its
folder flag exactly when its item carries a truthy folder marker, and a
non-folder item with an available (truthy) mime type gets that mime type as
its type. -/
theorem list_maps_entries_in_order (raw : String) (items : List Json)
    (es : List FileEntry)
    (h : listChildren
      (some ⟨raw, some (.obj [("value", .arr items)])⟩) = .listed es) :
    es.length = items.length ∧
    ∀ i item, items.get? i = some item →
      ∃ e, es.get? i = some e ∧
        mapListItem item = .ok e ∧
        e.isFolder = hasFolderMarker item ∧
        (hasFolderMarker item = false →
          ∀ t, mimeTypeOf item = some t → t.truthy = true → e.type = t) := by
  have hred : listChildren (some ⟨raw, some (.obj [("value", .arr items)])⟩) =
      (match mapItems items with
       | .ok es2 => ListOutcome.listed es2
       | .error e => ListOutcome.crashed) := rfl
  rw [hred] at h
  rcases hm : mapItems items with e | es2 <;> rw [hm] at h <;> dsimp only at h
  · cases h
  · injection h with hx
    subst hx
    obtain ⟨hlen, hget⟩ := mapItems_ok_get items es2 hm
    refine ⟨hlen, ?_⟩
    intro i item hi
    obtain ⟨e, hie, hme⟩ := hget i item hi
    obtain ⟨hf, ht⟩ := mapListItem_fields item e hme
    exact ⟨e, hie, hme, hf, ht⟩

/-- Witness for C6: a listing with one file item and one folder item yields
two entries whose folder flags match the fixtures in input order. -/
theorem list_maps_entries_in_order_witness :
    ∃ e0 e1,
      (∃ es, listChildren (some listRespTwo) = ListOutcome.listed es ∧
        es.length = 2 ∧ es.get? 0 = some e0 ∧ es.get? 1 = some e1) ∧
      e0.isFolder = false ∧ e0.type = Json.str "text/plain" ∧
      e1.isFolder = true ∧ e1.type = Json.str "folder" := by
  obtain ⟨es, hes⟩ : ∃ es, listChildren (some listRespTwo) =
      ListOutcome.listed es := ⟨_, rfl⟩
  have h := list_maps_entries_in_order "listraw" [fileItem, folderItem] es hes
  obtain ⟨e0, h0, hm0, hf0, ht0⟩ := h.2 0 fileItem rfl
  obtain ⟨e1, h1, hm1, hf1, ht1⟩ := h.2 1 folderItem rfl
  refine ⟨e0, e1, ⟨es, hes, h.1, h0, h1⟩, ?_, ?_, ?_, ?_⟩
  · rw [hf0]
    rfl
  · exact ht0 rfl (Json.str "text/plain") rfl rfl
  · rw [hf1]
    rfl
  · have he1 : e1 =
        ⟨some (.str "sub"), none, none, none, none, true, Json.str "folder"⟩ := by
      have h2 := hm1
      rw [show mapListItem folderItem = Except.ok
        ⟨some (.str "sub"), none, none, none, none, true, Json.str "folder"⟩
        from rfl] at h2
      injection h2 with hx
      exact hx.symm
    rw [he1]
